import Mathlib

/-!
Verification development for a family of periodic hardware-telemetry loggers
written in C (log.c, util_logger.c, cpu_logger.c, logger.c,
combined_gpu_logger.c).  The C code is embedded shallowly:

* machine `unsigned long long` arithmetic is `Nat` arithmetic reduced
  modulo 2^64 exactly where the C code performs 64-bit operations;
* `double` arithmetic is modelled over `ℚ`; every numeric result asserted
  below (0, -1, 50, 75, 100) is exactly representable in binary64, and the
  operations involved ((a-b)*100/c on small integers) are exact there;
* text input is a `List Char` (the bytes before the terminating NUL);
  `sscanf`-style conversions are implemented character by character;
* the file-system surface seen by catalog discovery (a directory listing,
  an `access` check, the content of a `type` file) is passed in as data.

Definitions are named after the C functions they embed.
-/

namespace Logger

/-! ## Character-level scanning primitives -/

/-- C `isspace` (the whitespace set used by `sscanf` conversions). -/
def isSpaceC (c : Char) : Bool :=
  c = ' ' || c = '\t' || c = '\n' || c = '\x0b' || c = '\x0c' || c = '\r'

/-- The whitespace set skipped explicitly by `fast_parse_int`
(space, tab, newline, carriage return only). -/
def isWsFast (c : Char) : Bool :=
  c = ' ' || c = '\t' || c = '\n' || c = '\r'

/-- C `isdigit`. -/
def isDigitC (c : Char) : Bool :=
  '0' ≤ c && c ≤ '9'

/-- Does the remaining input start with a decimal digit? -/
def headIsDigit : List Char → Bool
  | [] => false
  | c :: _ => isDigitC c

/-- Consume the maximal run of leading digits, accumulating their value
(the `v = v * 10 + (*s - '0')` loop shared by the C parsers). -/
def parseDigitsAux : List Char → Nat → Nat × List Char
  | [], acc => (acc, [])
  | c :: cs, acc =>
    if isDigitC c then parseDigitsAux cs (acc * 10 + (c.toNat - 48)) else (acc, c :: cs)

/-- The constant 2^64, the modulus of C `unsigned long long` arithmetic. -/
def U64 : Nat := 2 ^ 64

/-- One `%llu` conversion: skip whitespace, accept an optional sign, then
require at least one digit; the value is stored into a 64-bit unsigned
variable. Returns the value and the unconsumed input, or `none` on a
matching failure (which makes `sscanf` stop). -/
def scanU64 (s : List Char) : Option (Nat × List Char) :=
  match s.dropWhile isSpaceC with
  | '-' :: rest =>
    if headIsDigit rest then
      let p := parseDigitsAux rest 0
      some ((U64 - p.1 % U64) % U64, p.2)
    else none
  | '+' :: rest =>
    if headIsDigit rest then
      let p := parseDigitsAux rest 0
      some (p.1 % U64, p.2)
    else none
  | other =>
    if headIsDigit other then
      let p := parseDigitsAux other 0
      some (p.1 % U64, p.2)
    else none

/-- Up to `k` consecutive `%llu` conversions; stops at the first failure,
returning the values converted so far (in order). -/
def scanU64s : Nat → List Char → List Nat
  | 0, _ => []
  | k + 1, s =>
    match scanU64 s with
    | some (v, rest) => v :: scanU64s k rest
    | none => []

/-- One `%s` conversion: skip whitespace, then take the maximal non-whitespace
run. Returns the token and the unconsumed input (the token is empty exactly
when the conversion fails). -/
def scanToken (s : List Char) : List Char × List Char :=
  let s1 := s.dropWhile isSpaceC
  (s1.takeWhile (fun c => !isSpaceC c), s1.dropWhile (fun c => !isSpaceC c))

/-! ## log.c: CpuTime samples and the delta calculator -/

/-- The `CpuTime` struct of log.c. All cumulative fields are
zero-initialized (`memset`) before parsing. -/
structure CpuTime where
  user : Nat := 0
  nice : Nat := 0
  system : Nat := 0
  idle : Nat := 0
  iowait : Nat := 0
  irq : Nat := 0
  softirq : Nat := 0
  steal : Nat := 0
  guest : Nat := 0
  guest_nice : Nat := 0
  successfully_parsed : Bool := false
deriving DecidableEq, Repr

/-- A line is recognized as a per-core line when it starts with the three
characters `cpu` followed by a decimal digit (`strncmp`/`isdigit` test shared
by log.c and util_logger.c; the aggregate line has a blank at position 3). -/
def isCoreLine (line : List Char) : Bool :=
  line.take 3 = ['c', 'p', 'u'] && isDigitC (line.getD 3 (Char.ofNat 0))

/-- The per-line body of log.c `get_cpu_core_times`:
`sscanf(line, "%s %llu %llu %llu %llu %llu %llu %llu %llu %llu %llu", ...)`
into a zeroed `CpuTime`; the sample counts as successfully parsed when
`values_parsed >= 1 + 8`. -/
def parseCpuTimeLine (line : List Char) : CpuTime :=
  let t := scanToken line
  if t.1 = [] then {}
  else
    let fs := scanU64s 10 t.2
    { user := fs.getD 0 0, nice := fs.getD 1 0, system := fs.getD 2 0,
      idle := fs.getD 3 0, iowait := fs.getD 4 0, irq := fs.getD 5 0,
      softirq := fs.getD 6 0, steal := fs.getD 7 0, guest := fs.getD 8 0,
      guest_nice := fs.getD 9 0,
      successfully_parsed := decide (1 + 8 ≤ 1 + fs.length) }

/-- log.c `get_cpu_core_times`: count the recognized core lines, then fill a
freshly allocated array with one parsed sample per recognized line, in file
order (the slot is the running index `current_core_index`, not the core
number on the line). -/
def get_cpu_core_times (lines : List (List Char)) : List CpuTime :=
  (lines.filter isCoreLine).map parseCpuTimeLine

/-- Value `idle + iowait` as computed into a `u64` local (log.c line 122). -/
def cpuIdle64 (t : CpuTime) : Nat := (t.idle + t.iowait) % U64

/-- Value `user + nice + system + irq + softirq + steal` as a `u64` (log.c 124). -/
def cpuNonIdle64 (t : CpuTime) : Nat :=
  (t.user + t.nice + t.system + t.irq + t.softirq + t.steal) % U64

/-- Value `idle-like + non-idle` as a `u64` (log.c 126). -/
def cpuTotal64 (t : CpuTime) : Nat := (cpuIdle64 t + cpuNonIdle64 t) % U64

/-- C `u64` subtraction `a - b` (wraps modulo 2^64). -/
def u64sub (a b : Nat) : Nat := (a % U64 + U64 - b % U64) % U64

/-- log.c `calculate_core_utilization`. Returns the percentage as an exact
rational; `-1` is the "unavailable" marker. -/
def calculate_core_utilization (prev curr : CpuTime) : ℚ :=
  if !prev.successfully_parsed || !curr.successfully_parsed then -1
  else
    let prev_idle := cpuIdle64 prev
    let curr_idle := cpuIdle64 curr
    let prev_total := cpuTotal64 prev
    let curr_total := cpuTotal64 curr
    let total_diff := u64sub curr_total prev_total
    let idle_diff := u64sub curr_idle prev_idle
    if total_diff = 0 then 0
    else if curr_total < prev_total ∨ curr_idle < prev_idle then 0
    else
      let util : ℚ := ((u64sub total_diff idle_diff : ℕ) : ℚ) * 100 / (total_diff : ℚ)
      if util < 0 then 0 else if util > 100 then 100 else util

/-! ## util_logger.c: snapshots and the inline delta computation -/

/-- util_logger.c `cpu_snap_t`: three 8-slot arrays (`MAX_CORES = 8`),
zeroed by `memset` before each parse. -/
structure CpuSnap where
  total : List Nat
  idle_like : List Nat
  present : List Bool
deriving DecidableEq, Repr

/-- The zeroed snapshot. -/
def initSnap : CpuSnap :=
  ⟨List.replicate 8 0, List.replicate 8 0, List.replicate 8 false⟩

/-- The `sscanf(line, "cpu%u %llu ...", &id, &f[0], ..., &f[9])` step of
util_logger.c `read_cpu_snapshot`, applied after the `strncmp`/`isdigit`
guard: the declared core index and the numeric fields that follow it.
`none` when the line is not a recognized core line. -/
def parseCoreLine (line : List Char) : Option (Nat × List Nat) :=
  if isCoreLine line then
    let p := parseDigitsAux (line.drop 3) 0
    some (p.1, scanU64s 10 p.2)
  else none

/-- The write performed for an in-range core line: `total` is the 64-bit sum
of all parsed fields, `idle_like` is `f[3] + (n >= 6 ? f[4] : 0)`, and the
slot written is the declared index. -/
def storeCore (s : CpuSnap) (id : Nat) (fs : List Nat) : CpuSnap :=
  { total := s.total.set id (fs.foldl (fun a b => (a + b) % U64) 0),
    idle_like := s.idle_like.set id
      ((fs.getD 3 0 + (if 5 ≤ fs.length then fs.getD 4 0 else 0)) % U64),
    present := s.present.set id true }

/-- One loop iteration of util_logger.c `read_cpu_snapshot`: skip
non-core lines, skip lines with fewer than 5 conversions
(`if (n < 5) continue`), and store under the guard `id < MAX_CORES`. -/
def processStatLine (s : CpuSnap) (line : List Char) : CpuSnap :=
  match parseCoreLine line with
  | none => s
  | some (id, fs) =>
    if 1 + fs.length < 5 then s
    else if id < 8 then storeCore s id fs
    else s

/-- util_logger.c `read_cpu_snapshot` over the whole text. -/
def read_cpu_snapshot (lines : List (List Char)) : CpuSnap :=
  lines.foldl processStatLine initSnap

/-- util_logger.c `delta_u64`: `b >= a ? b - a : b + (UINT64_MAX - a) + 1`
(a wraparound-adjusting delta). -/
def delta_u64 (a b : Nat) : Nat :=
  if a ≤ b then b - a else b + (U64 - 1 - a) + 1

/-- The per-core utilization computed in util_logger.c `main`
(lines 150-162): `-1` when the core is absent in either snapshot or when
`!(dt > 0 && di <= dt)`, else `100.0 * (dt - di) / dt`. -/
def compute_util (s1 s2 : CpuSnap) (c : Nat) : ℚ :=
  if s1.present.getD c false = true ∧ s2.present.getD c false = true then
    let dt := delta_u64 (s1.total.getD c 0) (s2.total.getD c 0)
    let di := delta_u64 (s1.idle_like.getD c 0) (s2.idle_like.getD c 0)
    if 0 < dt ∧ di ≤ dt then 100 * ((dt - di : ℕ) : ℚ) / (dt : ℚ)
    else -1
  else -1

/-! ## cpu_logger.c: catalog discovery -/

/-- C `strncmp(s, lit, lit.length) == 0` on our char lists. -/
def strncmpEq (s lit : List Char) : Bool :=
  s.take lit.length = lit

/-- The implicit character-comparison core of C `strstr`: does `hay`
start with `needle`? -/
def startsWithL : List Char → List Char → Bool
  | _, [] => true
  | [], _ :: _ => false
  | a :: as, b :: bs => (a == b) && startsWithL as bs

/-- C `strstr(hay, needle) != NULL`: some suffix of `hay` starts with
`needle`. -/
def strstrFound : List Char → List Char → Bool
  | [], needle => needle.isEmpty
  | a :: t, needle => startsWithL (a :: t) needle || strstrFound t needle

/-- The thermal-zone content filter of cpu_logger.c `scan_thermal_zones`
(line 118): `strstr(type_buf, "cpu") != NULL || strstr(type_buf, "CPU") != NULL`. -/
def zoneTypeWanted (t : String) : Bool :=
  strstrFound t.toList (String.toList "cpu") || strstrFound t.toList (String.toList "CPU")

/-- The name filter plus `atoi(d_name + 3)` of cpu_logger.c `scan_cpus`:
entries named `cpu` followed by a digit yield their decimal index. -/
def cpuEntryIndex (name : String) : Option Nat :=
  let cs := name.toList
  if strncmpEq cs ['c', 'p', 'u'] && isDigitC (cs.getD 3 (Char.ofNat 0)) then
    some (parseDigitsAux (cs.drop 3) 0).1
  else none

/-- cpu_logger.c `scan_cpus`: walk the directory entries in enumeration
order, keep those that look like `cpuN` and whose `scaling_cur_freq` node is
accessible (`freqOk`), recording the parsed core number; the table holds at
most `MAX_CPUS = 128` entries. No sorting is performed. -/
def scan_cpus (entries : List String) (freqOk : String → Bool) : List Nat :=
  (entries.filterMap (fun nm =>
    match cpuEntryIndex nm with
    | some k => if freqOk nm then some k else none
    | none => none)).take 128

/-- cpu_logger.c `scan_thermal_zones`: walk the directory entries in
enumeration order, keep those named `thermal_zone*` whose `type` file reads
successfully (`typeOf`) and matches the cpu/CPU substring filter, recording
(zone name, type string); at most `MAX_THERMAL_ZONES = 128` entries.
No sorting is performed. -/
def scan_thermal_zones (entries : List String) (typeOf : String → Option String) :
    List (String × String) :=
  (entries.filterMap (fun nm =>
    if strncmpEq nm.toList (String.toList "thermal_zone") then
      match typeOf nm with
      | some tb => if zoneTypeWanted tb then some (nm, tb) else none
      | none => none
    else none)).take 128

/-! ## Scheduler timing models

logger.c, cpu_logger.c and combined_gpu_logger.c drive their loops with
`clock_gettime(CLOCK_MONOTONIC, &next)` once before the loop, then per tick
`next.tv_sec += 1; clock_nanosleep(CLOCK_MONOTONIC, TIMER_ABSTIME, &next, NULL)`:
an absolute anchor advanced by exactly one interval per tick.  util_logger.c
instead calls `msleep_exact(interval*1000)`, a plain relative `nanosleep`,
once per iteration, and log.c calls `sleep(1)`.  Times are modelled in ℚ
(intervals of one second); `work n` is the duration of tick `n`'s work. -/

/-- Start time of tick `n` under the absolute-anchor loop: the first tick
starts at the anchor origin `t0`; afterwards the loop works, advances the
anchor to `t0 + (n+1)`, and blocks until that absolute time (an absolute
wait that has already passed returns immediately). -/
def absWake (t0 : ℚ) (work : ℕ → ℚ) : ℕ → ℚ
  | 0 => t0
  | n + 1 => max (t0 + ((n : ℚ) + 1)) (absWake t0 work n + work n)

/-- Start time of tick `n` under the relative-sleep loop of util_logger.c
and log.c: each iteration sleeps one full interval and then works, so the
work time adds to the period. -/
def relWake (t0 : ℚ) (work : ℕ → ℚ) : ℕ → ℚ
  | 0 => t0
  | n + 1 => relWake t0 work n + 1 + work n

/-! ## fast_parse_int and the integer readers -/

/-- Implementation-level truncation of a C `long` to `int`
(two's-complement wrap to 32 bits), applied by the `(int)` casts in
`fast_parse_int`. -/
def toInt32 (z : ℤ) : ℤ := (z + 2 ^ 31) % 2 ^ 32 - 2 ^ 31

/-- Function `fast_parse_int` (combined_gpu_logger.c lines 22-34, identical in
logger.c and cpu_logger.c): skip the explicit whitespace set, accept one
optional minus sign, then require at least one digit; returns `-1` when no
digit is seen. -/
def fast_parse_int (s : List Char) : ℤ :=
  match s.dropWhile isWsFast with
  | '-' :: rest =>
    if headIsDigit rest then toInt32 (-(((parseDigitsAux rest 0).1 : ℤ))) else -1
  | other =>
    if headIsDigit other then toInt32 (((parseDigitsAux other 0).1 : ℤ)) else -1

/-- Functions `read_int_file` / `read_int_fd`: `-1` when the file cannot be opened
(`content = none`) or the read returns no bytes; otherwise
`fast_parse_int` on at most 127 bytes of content. -/
def read_int_file (content : Option (List Char)) : ℤ :=
  match content with
  | none => -1
  | some cs => if cs = [] then -1 else fast_parse_int (cs.take 127)

/-- The failure classification applied by every caller of the integer
readers (logger.c lines 99-101 retry condition `t_mC < 0`, util_logger.c
`read_gpu_busy` line 46 `val < 0`, log.c / util_logger.c N/A output for
negative values). -/
def treated_as_failed (r : ℤ) : Bool := r < 0

/-! ## Spec-side definitions (from the specification text, for comparison)

These two follow the wording of the spec's UtilizationCalculator contract:
idle-like = idle + iowait; non-idle = user+nice+system+irq+softirq+steal;
total = idle-like + non-idle, guest fields excluded. -/

/-- Idle-like time of a sample per the spec. -/
def specIdle (t : CpuTime) : Nat := t.idle + t.iowait

/-- Non-idle time of a sample per the spec. -/
def specNonIdle (t : CpuTime) : Nat :=
  t.user + t.nice + t.system + t.irq + t.softirq + t.steal

/-- Total time of a sample per the spec (guest fields excluded). -/
def specTotal (t : CpuTime) : Nat := specIdle t + specNonIdle t

/-! ### Concrete inputs used in the theorems below -/

/-- The spec's end-to-end first snapshot: user=100, idle=900, others zero. -/
def snapshot1 : CpuTime := { user := 100, idle := 900, successfully_parsed := true }

/-- The spec's end-to-end second snapshot: user=150, idle=950, others zero. -/
def snapshot2 : CpuTime := { user := 150, idle := 950, successfully_parsed := true }

/-- A core line whose guest field (100) is nonzero. -/
def lineGuestA : List Char := String.toList "cpu0 0 0 0 0 0 0 0 0 0 0"

/-- A core line whose guest field (100) is nonzero. -/
def lineGuestB : List Char := String.toList "cpu0 50 0 0 50 0 0 0 0 100 0"

/-- A core line with 5 numeric fields; total 500, idle-like 200. -/
def lineZeroDelta : List Char := String.toList "cpu0 100 100 100 150 50"

/-- A core line with total 100 and idle-like 50. -/
def lineBackA : List Char := String.toList "cpu0 50 0 0 50"

/-- A core line with total 90 and idle-like 50: the total went backward
relative to lineBackA. -/
def lineBackB : List Char := String.toList "cpu0 40 0 0 50"

/-- A core line with exactly 4 numeric fields. -/
def lineFour : List Char := String.toList "cpu0 1 2 3 4"

/-- A core line with 8 numeric fields, declared index 0. -/
def lineCore0 : List Char := String.toList "cpu0 1 2 3 4 5 6 7 8"

/-- A core line with 8 numeric fields, declared index 3. -/
def lineCore3 : List Char := String.toList "cpu3 7 0 0 0 0 0 0 0"

/-- The aggregate all-cores line (no index after the cpu label). -/
def lineAggregate : List Char := String.toList "cpu 10 20 30 40 50 60 70 80"

/-- A core line whose declared index 12 is outside MAX_CORES = 8. -/
def lineBigIndex : List Char := String.toList "cpu12 1 2 3 4 5"

/-- A sample whose total ticks are 100 (successfully parsed). -/
def backPrev : CpuTime := { user := 100, successfully_parsed := true }

/-- A sample whose total ticks are 90 (successfully parsed). -/
def backCurr : CpuTime := { user := 90, successfully_parsed := true }

/-! ## Helper lemmas -/

theorem list_getD_set_self {α : Type} (l : List α) (i : Nat) (x d : α)
    (h : i < l.length) : (l.set i x).getD i d = x := by
  induction l generalizing i with
  | nil => simp at h
  | cons a t ih =>
    cases i with
    | zero => rfl
    | succ j =>
      simp only [List.set, List.getD, List.getElem?_cons_succ, List.length_cons] at *
      exact ih j (by omega)

theorem list_getD_set_ne {α : Type} (l : List α) (i j : Nat) (x d : α)
    (h : j ≠ i) : (l.set i x).getD j d = l.getD j d := by
  induction l generalizing i j with
  | nil => rfl
  | cons a t ih =>
    cases i with
    | zero =>
      cases j with
      | zero => exact absurd rfl h
      | succ k => rfl
    | succ i' =>
      cases j with
      | zero => rfl
      | succ k =>
        simp only [List.set, List.getD, List.getElem?_cons_succ]
        exact ih i' k (by omega)

theorem list_getD_replicate {α : Type} (n i : Nat) (a : α) :
    (List.replicate n a).getD i a = a := by
  induction n generalizing i with
  | zero => rfl
  | succ m ih =>
    cases i with
    | zero => rfl
    | succ j =>
      simpa only [List.replicate, List.getD, List.getElem?_cons_succ] using ih j

theorem U64_pos : 0 < U64 := by norm_num [U64]

theorem cpuIdle64_lt (t : CpuTime) : cpuIdle64 t < U64 :=
  Nat.mod_lt _ U64_pos

theorem cpuTotal64_lt (t : CpuTime) : cpuTotal64 t < U64 :=
  Nat.mod_lt _ U64_pos

theorem u64sub_of_le {a b : Nat} (hba : b ≤ a) (ha : a < U64) :
    u64sub a b = a - b := by
  unfold u64sub
  rw [Nat.mod_eq_of_lt ha, Nat.mod_eq_of_lt (lt_of_le_of_lt hba ha)]
  have h1 : a + U64 - b = (a - b) + U64 := by omega
  rw [h1, Nat.add_mod_right, Nat.mod_eq_of_lt (by omega)]

theorem u64sub_self {a : Nat} (ha : a < U64) : u64sub a a = 0 := by
  rw [u64sub_of_le le_rfl ha, Nat.sub_self]

/-! ## Claim C2 -/

/-- Claim C2, counterexample to the claim as stated: the util_logger.c
utilization computation, fed two successfully parsed samples with total
delta exactly zero, returns the unavailable marker `-1`, not `0`
(`if (dt > 0 && di <= dt)` fails when `dt == 0`). -/
theorem claim2_cex :
    delta_u64 ((read_cpu_snapshot [lineZeroDelta]).total.getD 0 0)
        ((read_cpu_snapshot [lineZeroDelta]).total.getD 0 0) = 0 ∧
    (read_cpu_snapshot [lineZeroDelta]).present.getD 0 false = true ∧
    compute_util (read_cpu_snapshot [lineZeroDelta]) (read_cpu_snapshot [lineZeroDelta]) 0 = -1 ∧
    compute_util (read_cpu_snapshot [lineZeroDelta]) (read_cpu_snapshot [lineZeroDelta]) 0 ≠ 0 := by
  have hS : read_cpu_snapshot [lineZeroDelta] =
      ⟨[500, 0, 0, 0, 0, 0, 0, 0], [200, 0, 0, 0, 0, 0, 0, 0],
       [true, false, false, false, false, false, false, false]⟩ := by decide
  rw [hS]
  refine ⟨by decide, by decide, ?_, ?_⟩ <;>
    simp only [compute_util, List.getD, List.getElem?_cons_zero, Option.getD_some] <;>
    norm_num [delta_u64, U64]

/-- Claim C2 (amended): in log.c `calculate_core_utilization`, a pair of
successfully parsed samples with total delta exactly zero yields `0.0`
regardless of the idle delta; the util_logger.c variant instead yields the
unavailable marker `-1.0` whenever the total delta is zero. -/
theorem claim2_amended :
    (∀ p c : CpuTime, p.successfully_parsed = true → c.successfully_parsed = true →
      cpuTotal64 p = cpuTotal64 c → calculate_core_utilization p c = 0) ∧
    (∀ s1 s2 : CpuSnap, ∀ i : Nat,
      s1.present.getD i false = true → s2.present.getD i false = true →
      delta_u64 (s1.total.getD i 0) (s2.total.getD i 0) = 0 →
      compute_util s1 s2 i = -1) := by
  constructor
  · intro p c hp hc heq
    unfold calculate_core_utilization
    rw [hp, hc, heq]
    simp [u64sub_self (cpuTotal64_lt c)]
  · intro s1 s2 i h1 h2 hdt
    unfold compute_util
    rw [if_pos ⟨h1, h2⟩, hdt]
    simp

/-- Claim C2, witness: a sample paired with itself has zero total delta;
log.c reports 0, util_logger.c reports the unavailable marker. -/
theorem claim2_witness :
    calculate_core_utilization snapshot1 snapshot1 = 0 ∧
    compute_util (read_cpu_snapshot [lineZeroDelta]) (read_cpu_snapshot [lineZeroDelta]) 0 = -1 :=
  ⟨claim2_amended.1 snapshot1 snapshot1 rfl rfl rfl,
   claim2_amended.2 _ _ 0 (by decide) (by decide) (by decide)⟩

/-! ## Claim C3 -/

/-- Claim C3, counterexample to the claim as stated: on a pair of
successfully parsed samples whose current total (90) is below the previous
total (100), the util_logger.c computation returns a wraparound-adjusted
percentage of `100`, not `0` (`delta_u64` maps the backward step to
2^64 - 10 ticks, all of them non-idle). -/
theorem claim3_cex :
    (read_cpu_snapshot [lineBackB]).total.getD 0 0 <
      (read_cpu_snapshot [lineBackA]).total.getD 0 0 ∧
    compute_util (read_cpu_snapshot [lineBackA]) (read_cpu_snapshot [lineBackB]) 0 = 100 ∧
    compute_util (read_cpu_snapshot [lineBackA]) (read_cpu_snapshot [lineBackB]) 0 ≠ 0 := by
  have hA : read_cpu_snapshot [lineBackA] =
      ⟨[100, 0, 0, 0, 0, 0, 0, 0], [50, 0, 0, 0, 0, 0, 0, 0],
       [true, false, false, false, false, false, false, false]⟩ := by decide
  have hB : read_cpu_snapshot [lineBackB] =
      ⟨[90, 0, 0, 0, 0, 0, 0, 0], [50, 0, 0, 0, 0, 0, 0, 0],
       [true, false, false, false, false, false, false, false]⟩ := by decide
  rw [hA, hB]
  refine ⟨by decide, ?_, ?_⟩ <;>
    simp only [compute_util, List.getD, List.getElem?_cons_zero, Option.getD_some] <;>
    norm_num [delta_u64, U64]

/-- Claim C3 (amended): in log.c `calculate_core_utilization`, a pair of
successfully parsed samples whose current total or current idle-like value
went backward yields `0.0` (not an error and not negative); the
util_logger.c variant instead wraparound-adjusts the delta and can report a
full-scale percentage. -/
theorem claim3_amended (p c : CpuTime)
    (hp : p.successfully_parsed = true) (hc : c.successfully_parsed = true)
    (h : cpuTotal64 c < cpuTotal64 p ∨ cpuIdle64 c < cpuIdle64 p) :
    calculate_core_utilization p c = 0 := by
  unfold calculate_core_utilization
  rw [hp, hc, if_neg (by simp)]
  dsimp only
  split_ifs with h1 <;> rfl

/-- Claim C3, witness: totals 100 then 90 (a backward counter) give 0. -/
theorem claim3_witness : calculate_core_utilization backPrev backCurr = 0 :=
  claim3_amended backPrev backCurr rfl rfl (Or.inl (by decide))

/-! ## Claim C4 -/

/-- Claim C4: whenever either sample's success flag is false, log.c
`calculate_core_utilization` returns the unavailable marker `-1` before
touching any delta, and likewise the util_logger.c computation returns `-1`
whenever either snapshot lacks the core; an unparsed sample never feeds the
delta formula. -/
theorem claim4 :
    (∀ p c : CpuTime, p.successfully_parsed = false ∨ c.successfully_parsed = false →
      calculate_core_utilization p c = -1) ∧
    (∀ s1 s2 : CpuSnap, ∀ i : Nat,
      s1.present.getD i false = false ∨ s2.present.getD i false = false →
      compute_util s1 s2 i = -1) := by
  constructor
  · rintro p c (h | h) <;> simp [calculate_core_utilization, h]
  · rintro s1 s2 i h
    unfold compute_util
    have hcond : ¬(s1.present.getD i false = true ∧ s2.present.getD i false = true) := by
      rintro ⟨ha, hb⟩
      rcases h with h | h
      · rw [h] at ha; cases ha
      · rw [h] at hb; cases hb
    rw [if_neg hcond]

/-- Claim C4, witness: a default (unparsed) sample against a parsed one is
unavailable; so is a core absent from both snapshots. -/
theorem claim4_witness :
    calculate_core_utilization {} snapshot2 = -1 ∧ compute_util initSnap initSnap 0 = -1 :=
  ⟨claim4.1 {} snapshot2 (Or.inl rfl), claim4.2 initSnap initSnap 0 (Or.inl (by decide))⟩

/-! ## Claim C1 -/

/-- Claim C1, counterexample to the claim as stated: on two successfully
parsed samples with a growing guest field, the util_logger.c computation
(which sums every parsed field into its total, guest included) reports 75,
while the claim's formula — total delta with guest excluded — gives 50, as
log.c does. -/
theorem claim1_cex :
    (parseCpuTimeLine lineGuestA).successfully_parsed = true ∧
    (parseCpuTimeLine lineGuestB).successfully_parsed = true ∧
    (100 : ℚ) * (((specTotal (parseCpuTimeLine lineGuestB) -
          specTotal (parseCpuTimeLine lineGuestA) : ℕ) : ℚ) -
        ((specIdle (parseCpuTimeLine lineGuestB) -
          specIdle (parseCpuTimeLine lineGuestA) : ℕ) : ℚ)) /
      ((specTotal (parseCpuTimeLine lineGuestB) -
          specTotal (parseCpuTimeLine lineGuestA) : ℕ) : ℚ) = 50 ∧
    calculate_core_utilization (parseCpuTimeLine lineGuestA) (parseCpuTimeLine lineGuestB) = 50 ∧
    compute_util (read_cpu_snapshot [lineGuestA]) (read_cpu_snapshot [lineGuestB]) 0 = 75 ∧
    (75 : ℚ) ≠ 50 := by
  have hpA : parseCpuTimeLine lineGuestA =
      { successfully_parsed := true } := by decide
  have hpB : parseCpuTimeLine lineGuestB =
      { user := 50, idle := 50, guest := 100, successfully_parsed := true } := by decide
  have hsA : read_cpu_snapshot [lineGuestA] =
      ⟨[0, 0, 0, 0, 0, 0, 0, 0], [0, 0, 0, 0, 0, 0, 0, 0],
       [true, false, false, false, false, false, false, false]⟩ := by decide
  have hsB : read_cpu_snapshot [lineGuestB] =
      ⟨[200, 0, 0, 0, 0, 0, 0, 0], [50, 0, 0, 0, 0, 0, 0, 0],
       [true, false, false, false, false, false, false, false]⟩ := by decide
  rw [hpA, hpB, hsA, hsB]
  refine ⟨rfl, rfl, ?_, ?_, ?_, by norm_num⟩
  · norm_num [specTotal, specIdle, specNonIdle]
  · norm_num [calculate_core_utilization, cpuIdle64, cpuNonIdle64, cpuTotal64, u64sub, U64]
  · simp only [compute_util, List.getD, List.getElem?_cons_zero, Option.getD_some]
    norm_num [delta_u64, U64]

/-- Claim C1 (amended): in log.c `calculate_core_utilization`, for every
pair of successfully parsed samples whose raw counters did not go backward,
whose current field sum fits in 64 bits, and whose total delta is positive,
the result equals 100 x (total_delta - idle_delta) / total_delta clamped to
[0, 100], with idle-like = idle + iowait, non-idle =
user+nice+system+irq+softirq+steal, total = idle-like + non-idle and guest
fields excluded; the util_logger.c variant instead includes the guest
fields in its total, so its result can differ from this formula. -/
theorem claim1_amended (p c : CpuTime)
    (hp : p.successfully_parsed = true) (hc : c.successfully_parsed = true)
    (hu : p.user ≤ c.user) (hn : p.nice ≤ c.nice) (hs : p.system ≤ c.system)
    (hi : p.idle ≤ c.idle) (hw : p.iowait ≤ c.iowait) (hq : p.irq ≤ c.irq)
    (hsq : p.softirq ≤ c.softirq) (hst : p.steal ≤ c.steal)
    (hfit : specTotal c < U64)
    (hpos : specTotal p < specTotal c) :
    calculate_core_utilization p c =
      min 100 (max 0 ((100 : ℚ) *
        (((specTotal c - specTotal p : ℕ) : ℚ) - ((specIdle c - specIdle p : ℕ) : ℚ)) /
        ((specTotal c - specTotal p : ℕ) : ℚ))) := by
  have hIple : specIdle p ≤ specIdle c := by unfold specIdle; omega
  have hNple : specNonIdle p ≤ specNonIdle c := by unfold specNonIdle; omega
  have hTple : specTotal p ≤ specTotal c := le_of_lt hpos
  have hIcU : specIdle c < U64 := by unfold specTotal at hfit; omega
  have hNcU : specNonIdle c < U64 := by unfold specTotal at hfit; omega
  have hIpU : specIdle p < U64 := lt_of_le_of_lt hIple hIcU
  have hNpU : specNonIdle p < U64 := lt_of_le_of_lt hNple hNcU
  have hTpU : specTotal p < U64 := lt_of_le_of_lt hTple hfit
  have eIp : cpuIdle64 p = specIdle p := Nat.mod_eq_of_lt hIpU
  have eIc : cpuIdle64 c = specIdle c := Nat.mod_eq_of_lt hIcU
  have eNp : cpuNonIdle64 p = specNonIdle p := Nat.mod_eq_of_lt hNpU
  have eNc : cpuNonIdle64 c = specNonIdle c := Nat.mod_eq_of_lt hNcU
  have eTp : cpuTotal64 p = specTotal p := by
    unfold cpuTotal64
    rw [eIp, eNp]
    exact Nat.mod_eq_of_lt hTpU
  have eTc : cpuTotal64 c = specTotal c := by
    unfold cpuTotal64
    rw [eIc, eNc]
    exact Nat.mod_eq_of_lt hfit
  have hdle : specIdle c - specIdle p ≤ specTotal c - specTotal p := by
    unfold specTotal at *
    omega
  have etd2 : u64sub (specTotal c - specTotal p) (specIdle c - specIdle p)
      = (specTotal c - specTotal p) - (specIdle c - specIdle p) :=
    u64sub_of_le hdle (by omega)
  unfold calculate_core_utilization
  rw [hp, hc, if_neg (by simp)]
  dsimp only
  rw [eTp, eTc, eIp, eIc, u64sub_of_le hTple hfit, u64sub_of_le hIple hIcU, etd2,
    if_neg (by omega), if_neg (by omega)]
  have h1 : (0 : ℚ) < ((specTotal c - specTotal p : ℕ) : ℚ) := by
    have h2 : 0 < specTotal c - specTotal p := by omega
    exact_mod_cast h2
  have hcastle : ((specIdle c - specIdle p : ℕ) : ℚ) ≤ ((specTotal c - specTotal p : ℕ) : ℚ) :=
    Nat.cast_le.mpr hdle
  have hur : ((specTotal c - specTotal p - (specIdle c - specIdle p) : ℕ) : ℚ) * 100 /
      ((specTotal c - specTotal p : ℕ) : ℚ)
      = 100 * (((specTotal c - specTotal p : ℕ) : ℚ) - ((specIdle c - specIdle p : ℕ) : ℚ)) /
        ((specTotal c - specTotal p : ℕ) : ℚ) := by
    rw [Nat.cast_sub hdle]
    ring
  rw [hur]
  have h0r : 0 ≤ 100 * (((specTotal c - specTotal p : ℕ) : ℚ) -
      ((specIdle c - specIdle p : ℕ) : ℚ)) / ((specTotal c - specTotal p : ℕ) : ℚ) := by
    apply div_nonneg _ h1.le
    linarith
  have hler : 100 * (((specTotal c - specTotal p : ℕ) : ℚ) -
      ((specIdle c - specIdle p : ℕ) : ℚ)) / ((specTotal c - specTotal p : ℕ) : ℚ) ≤ 100 := by
    rw [div_le_iff₀ h1]
    have h3 : (0 : ℚ) ≤ ((specIdle c - specIdle p : ℕ) : ℚ) := Nat.cast_nonneg _
    linarith
  rw [if_neg (not_lt.mpr h0r), if_neg (not_lt.mpr hler), max_eq_right h0r, min_eq_right hler]

/-- Claim C1, witness: the spec's end-to-end example — user 100 to 150,
idle 900 to 950 — evaluates to exactly 50 percent. -/
theorem claim1_witness : calculate_core_utilization snapshot1 snapshot2 = 50 := by
  rw [claim1_amended snapshot1 snapshot2 rfl rfl (by decide) (by decide) (by decide) (by decide)
    (by decide) (by decide) (by decide) (by decide) (by decide) (by decide)]
  norm_num [specTotal, specIdle, specNonIdle, snapshot1, snapshot2]

/-! ## Claim C5 -/

/-- Claim C5, counterexample to the claim as stated: a core line with
exactly 4 numeric fields is rejected by log.c (fewer than 8 fields) but is
accepted — marked present, hence fed to the utilization formula — by
util_logger.c, whose threshold is `n < 5`, i.e. only 4 numeric fields after
the index. -/
theorem claim5_cex :
    (parseCpuTimeLine lineFour).successfully_parsed = false ∧
    (read_cpu_snapshot [lineFour]).present.getD 0 false = true := by
  refine ⟨by decide, by decide⟩

/-- Claim C5 (amended): in log.c `get_cpu_core_times`, a line counts as
successfully parsed iff the label token converts and at least 8 numeric
fields follow it; in util_logger.c `read_cpu_snapshot`, an in-range core
line is marked present iff at least 4 numeric fields follow the index. -/
theorem claim5_amended :
    (∀ line : List Char,
      (parseCpuTimeLine line).successfully_parsed = true ↔
        (scanToken line).1 ≠ [] ∧ 8 ≤ (scanU64s 10 (scanToken line).2).length) ∧
    (∀ line : List Char, ∀ id : Nat, ∀ fs : List Nat,
      parseCoreLine line = some (id, fs) → id < 8 →
      ((read_cpu_snapshot [line]).present.getD id false = true ↔ 4 ≤ fs.length)) := by
  constructor
  · intro line
    unfold parseCpuTimeLine
    rcases hst : scanToken line with ⟨tok, rest⟩
    dsimp only
    by_cases htok : tok = []
    · rw [if_pos htok]
      simp [htok]
    · rw [if_neg htok]
      simp only [decide_eq_true_eq]
      constructor
      · intro hlen
        exact ⟨htok, by omega⟩
      · rintro ⟨h1, hlen⟩
        omega
  · intro line id fs hpl hid
    unfold read_cpu_snapshot
    simp only [List.foldl]
    unfold processStatLine
    rw [hpl]
    dsimp only
    by_cases hlen : 1 + fs.length < 5
    · rw [if_pos hlen]
      have hfalse : initSnap.present.getD id false = false := list_getD_replicate 8 id false
      rw [hfalse]
      constructor
      · intro h'
        cases h'
      · intro h'
        omega
    · rw [if_neg hlen, if_pos hid]
      have htrue : (storeCore initSnap id fs).present.getD id false = true := by
        unfold storeCore
        exact list_getD_set_self _ id true false (by simpa [initSnap] using hid)
      rw [htrue]
      simp only [true_iff]
      omega

/-- Claim C5, witness: an 8-field line passes log.c's test, and a 4-field
line is marked present by util_logger.c. -/
theorem claim5_witness :
    (parseCpuTimeLine lineCore0).successfully_parsed = true ∧
    (read_cpu_snapshot [lineFour]).present.getD 0 false = true := by
  constructor
  · exact (claim5_amended.1 lineCore0).mpr ⟨by decide, by decide⟩
  · exact (claim5_amended.2 lineFour 0 [1, 2, 3, 4] (by decide) (by decide)).mpr (by decide)

/-! ## Claim C6 -/

/-- Claim C6, counterexample to the claim as stated: `scan_cpus` keeps the
directory enumeration order. The same core set {0, 1, 3} enumerated in two
different orders yields two different catalogs, and the order
[cpu3, cpu0, cpu1] is not numeric-ascending. -/
theorem claim6_cex :
    scan_cpus ["cpu3", "cpu0", "cpu1"] (fun _ => true) = [3, 0, 1] ∧
    scan_cpus ["cpu0", "cpu1", "cpu3"] (fun _ => true) = [0, 1, 3] ∧
    scan_cpus ["cpu3", "cpu0", "cpu1"] (fun _ => true) ≠
      scan_cpus ["cpu0", "cpu1", "cpu3"] (fun _ => true) := by
  refine ⟨by decide, by decide, by decide⟩

/-- Claim C6 (amended): discovery is a deterministic function of the
directory listing but preserves the enumeration order (no sorting); when the
entries happen to be enumerated in ascending name order, a layout with cores
{0, 1, 3} (non-matching entries ignored) and one thermal zone of type
cpu-thermal yields exactly the catalogs [0, 1, 3] and [cpu-thermal]. -/
theorem claim6_amended :
    scan_cpus ["online", "cpu0", "cpu1", "cpufreq", "cpu3"] (fun _ => true) = [0, 1, 3] ∧
    scan_thermal_zones ["thermal_zone0"]
      (fun nm => if nm = "thermal_zone0" then some "cpu-thermal" else none) =
      [("thermal_zone0", "cpu-thermal")] := by
  refine ⟨by decide, by decide⟩

/-! ## Claim C7 -/

theorem startsWithL_iff (nd : List Char) : ∀ hay : List Char,
    startsWithL hay nd = true ↔ ∃ r, nd ++ r = hay := by
  induction nd with
  | nil =>
    intro hay
    cases hay <;> simp [startsWithL]
  | cons b bs ih =>
    intro hay
    cases hay with
    | nil => simp [startsWithL]
    | cons a t =>
      simp only [startsWithL, Bool.and_eq_true, beq_iff_eq, ih, List.cons_append,
        List.cons.injEq]
      constructor
      · rintro ⟨hab, r, hr⟩
        exact ⟨r, hab.symm, hr⟩
      · rintro ⟨r, hba, hr⟩
        exact ⟨hba.symm, r, hr⟩

theorem strstrFound_iff (nd : List Char) : ∀ hay : List Char,
    strstrFound hay nd = true ↔ ∃ l r, l ++ nd ++ r = hay := by
  intro hay
  induction hay with
  | nil =>
    simp only [strstrFound, List.isEmpty_iff]
    constructor
    · rintro rfl
      exact ⟨[], [], rfl⟩
    · rintro ⟨l, r, h⟩
      rcases List.append_eq_nil.mp h with ⟨h1, h2⟩
      exact (List.append_eq_nil.mp h1).2
  | cons a t ih =>
    simp only [strstrFound, Bool.or_eq_true, ih, startsWithL_iff]
    constructor
    · rintro (⟨r, hr⟩ | ⟨l, r, hlr⟩)
      · exact ⟨[], r, by simpa using hr⟩
      · exact ⟨a :: l, r, by rw [List.cons_append, List.cons_append, hlr]⟩
    · rintro ⟨l, r, hlr⟩
      cases l with
      | nil => exact Or.inl ⟨r, by simpa using hlr⟩
      | cons x xs =>
        simp only [List.cons_append, List.cons.injEq] at hlr
        exact Or.inr ⟨xs, r, hlr.2⟩

/-- Claim C7, counterexample to the claim as stated: the filter is the
case-sensitive pair of tests `strstr(type, "cpu")` and `strstr(type, "CPU")`,
so the mixed-case types "Cpu-thermal" and "cPu" — which the claim says must
be included — are rejected, and a zone declaring type "Cpu-thermal" is left
out of the catalog. -/
theorem claim7_cex :
    zoneTypeWanted "Cpu-thermal" = false ∧
    zoneTypeWanted "cPu" = false ∧
    scan_thermal_zones ["thermal_zone0"] (fun _ => some "Cpu-thermal") = [] := by
  refine ⟨by decide, by decide, by decide⟩

/-- Claim C7 (amended): a thermal-zone candidate passes the content filter
iff its declared type string contains the exact substring `cpu` or the
exact substring `CPU` (a case-sensitive test on the two spellings; other
casings are excluded). -/
theorem claim7_amended (t : String) :
    zoneTypeWanted t = true ↔
      (∃ l r, l ++ String.toList "cpu" ++ r = t.toList) ∨
      (∃ l r, l ++ String.toList "CPU" ++ r = t.toList) := by
  unfold zoneTypeWanted
  simp only [Bool.or_eq_true, strstrFound_iff]

/-! ## Claim C8 -/

/-- Claim C8, counterexample to the claim as stated: log.c
`get_cpu_core_times` — a per-tick parse of the same accounting text — fills
its array sequentially, so with core 2 absent the line declaring index 3 is
stored at slot 1, not at its declared core index. -/
theorem claim8_cex :
    parseCoreLine lineCore3 = some (3, [7, 0, 0, 0, 0, 0, 0, 0]) ∧
    (get_cpu_core_times [lineCore0, lineCore3]).length = 2 ∧
    ((get_cpu_core_times [lineCore0, lineCore3]).getD 1 ({} : CpuTime)).user = 7 ∧
    (3 : Nat) ≠ 1 := by
  refine ⟨by decide, by decide, by decide, by decide⟩

/-- Claim C8 (amended): in util_logger.c `read_cpu_snapshot`, a recognized
core line carrying at least 4 numeric fields and an in-range declared index
is stored exactly at that index, leaving every other slot untouched; a
non-core line (including the aggregate cpu line) causes no write at all, and
so does a core line whose declared index is outside the capacity of 8 —
log.c `get_cpu_core_times`, by contrast, stores recognized lines
sequentially in file order. -/
theorem claim8_amended :
    (∀ s : CpuSnap, ∀ line : List Char, isCoreLine line = false →
      processStatLine s line = s) ∧
    (∀ s : CpuSnap, ∀ line : List Char, ∀ id : Nat, ∀ fs : List Nat,
      parseCoreLine line = some (id, fs) → 8 ≤ id → processStatLine s line = s) ∧
    (∀ s : CpuSnap, ∀ line : List Char, ∀ id : Nat, ∀ fs : List Nat,
      s.total.length = 8 → s.idle_like.length = 8 → s.present.length = 8 →
      parseCoreLine line = some (id, fs) → id < 8 → 4 ≤ fs.length →
      processStatLine s line = storeCore s id fs ∧
      (storeCore s id fs).present.getD id false = true ∧
      (∀ j : Nat, j ≠ id →
        (storeCore s id fs).total.getD j 0 = s.total.getD j 0 ∧
        (storeCore s id fs).idle_like.getD j 0 = s.idle_like.getD j 0 ∧
        (storeCore s id fs).present.getD j false = s.present.getD j false)) := by
  refine ⟨?_, ?_, ?_⟩
  · intro s line h
    unfold processStatLine parseCoreLine
    rw [h]
    simp
  · intro s line id fs hpl h8
    unfold processStatLine
    rw [hpl]
    dsimp only
    split_ifs with h1 h2 <;> first | rfl | omega
  · intro s line id fs hT hI hP hpl hid hlen
    unfold processStatLine
    rw [hpl]
    dsimp only
    rw [if_neg (by omega), if_pos hid]
    refine ⟨rfl, ?_, ?_⟩
    · unfold storeCore
      exact list_getD_set_self _ id true false (by rw [hP]; exact hid)
    · intro j hj
      unfold storeCore
      exact ⟨list_getD_set_ne _ id j _ 0 hj, list_getD_set_ne _ id j _ 0 hj,
        list_getD_set_ne _ id j _ false hj⟩

/-- Claim C8, witness: on the zeroed snapshot, the aggregate line and an
index-12 line cause no write, while a 4-field cpu0 line lands in slot 0 and
leaves slot 5 untouched. -/
theorem claim8_witness :
    processStatLine initSnap lineAggregate = initSnap ∧
    processStatLine initSnap lineBigIndex = initSnap ∧
    processStatLine initSnap lineFour = storeCore initSnap 0 [1, 2, 3, 4] ∧
    (storeCore initSnap 0 [1, 2, 3, 4]).present.getD 0 false = true ∧
    (storeCore initSnap 0 [1, 2, 3, 4]).total.getD 5 0 = initSnap.total.getD 5 0 := by
  have h3 := claim8_amended.2.2 initSnap lineFour 0 [1, 2, 3, 4] rfl rfl rfl
    (by decide) (by decide) (by decide)
  exact ⟨claim8_amended.1 initSnap lineAggregate (by decide),
    claim8_amended.2.1 initSnap lineBigIndex 12 [1, 2, 3, 4, 5] (by decide) (by decide),
    h3.1, h3.2.1, (h3.2.2 5 (by decide)).1⟩

/-! ## Claim C9 -/

/-- Claim C9, counterexample to the claim as stated: the util_logger.c and
log.c sampling loops wait with a relative sleep (`msleep_exact` wrapping
`nanosleep`, and `sleep(1)`), so with half a second of work per tick the
second tick starts at time 3, one full second after the absolute anchor
t0 + 2 that the claim promises. -/
theorem claim9_cex :
    relWake 0 (fun _ => (1 : ℚ) / 2) 2 = 3 ∧
    relWake 0 (fun _ => (1 : ℚ) / 2) 2 ≠ 0 + 2 := by
  constructor <;> norm_num [relWake]

/-- Claim C9 (amended): the logger.c, cpu_logger.c and combined_gpu_logger.c
loops anchor to an absolute monotonic time advanced by exactly one interval
per tick and wait with an absolute-time primitive, so whenever every tick's
work fits in the interval, tick N starts at exactly t0 + N — no drift ever
accumulates; the util_logger.c and log.c loops sleep relatively instead and
accumulate their work time as drift. -/
theorem claim9_amended (t0 : ℚ) (work : ℕ → ℚ)
    (h1 : ∀ i, work i ≤ 1) :
    ∀ n : ℕ, absWake t0 work n = t0 + n := by
  intro n
  induction n with
  | zero => simp [absWake]
  | succ m ih =>
    rw [absWake, ih, max_eq_left (by have := h1 m; linarith)]
    push_cast
    ring

/-- Claim C9, witness: with 1/2 second of work per one-second tick, the
absolute-anchor loop starts tick 3 at exactly time 3. -/
theorem claim9_witness : absWake 0 (fun _ => (1 : ℚ) / 2) 3 = 3 := by
  rw [claim9_amended 0 (fun _ => (1 : ℚ) / 2) (fun i => by norm_num) 3]
  norm_num

/-! ## Claim C10 -/

/-- Claim C10: the integer reader's parse-failure sentinel is `-1`, which is
also the legitimate parse of a file containing `-1` — the two cases are
indistinguishable — and the callers' failure test `result < 0` therefore
classifies every negative counter value (such as -42) as a failed read. -/
theorem claim10 :
    read_int_file (some (String.toList "-1\x0a")) = -1 ∧
    read_int_file none = -1 ∧
    read_int_file (some (String.toList "")) = -1 ∧
    read_int_file (some (String.toList "abc")) = -1 ∧
    read_int_file (some (String.toList "  -42\x0a")) = -42 ∧
    treated_as_failed (read_int_file (some (String.toList "-1\x0a"))) = true ∧
    treated_as_failed (read_int_file (some (String.toList "  -42\x0a"))) = true := by
  refine ⟨by decide, by decide, by decide, by decide, by decide, by decide, by decide⟩

end Logger
